import Mathlib

/-!
Shallow embedding of the bedrock-up updater (src/src/updater.rs together with
the argument surface of src/src/args.rs).

The pure core (JSON navigation, the download-url resolver, the version gate,
the exclusion decision of the archive applier, the staged-file-name
derivation) is translated directly.  Effectful boundaries (HTTP, the file
system, panics raised by unwrap) are made explicit: the outcome of each
fallible external step is a field of an environment record, and `update`
computes the observable outcome of one run from that environment, following
the control flow of the source line by line.
-/

namespace Updater

/-- serde_json::Value: null, booleans, numbers, strings, arrays, objects.
Numbers are modelled as integers; no claim depends on numeric values. -/
inductive Json where
  | null
  | bool (b : Bool)
  | num (n : Int)
  | str (s : String)
  | arr (items : List Json)
  | obj (fields : List (String × Json))

/-- Value::is_null. -/
def Json.isNull : Json → Bool
  | .null => true
  | _ => false

/-- Value::get with a string key: a field lookup on an object, None on any
other variant (serde_json returns None there as well). -/
def Json.get (j : Json) (key : String) : Option Json :=
  match j with
  | .obj fields => (fields.find? (fun kv => kv.1 = key)).map (fun kv => kv.2)
  | _ => none

/-- Value::as_array. -/
def Json.asArray (j : Json) : Option (List Json) :=
  match j with
  | .arr items => some items
  | _ => none

/-- Value::as_str (the claims only need the owned-string form). -/
def Json.asStr (j : Json) : Option String :=
  match j with
  | .str s => some s
  | _ => none

/-- args.rs: the DownloadType enum. -/
inductive DownloadType where
  | windows
  | linux
  | previewWindows
  | previewLinux
  | serverJar
deriving DecidableEq, Repr

/-- args.rs: the Display impl of DownloadType, rendering the five wire
tokens. -/
def DownloadType.toString : DownloadType → String
  | .windows => "serverBedrockWindows"
  | .linux => "serverBedrockLinux"
  | .previewWindows => "serverBedrockPreviewWindows"
  | .previewLinux => "serverBedrockPreviewLinux"
  | .serverJar => "serverJar"

/-- The source's test item.get("downloadType") == Some(&token.into()), where
token is the rendered identity: Value equality against a string value holds
exactly when the field is present, is a string, and the contents agree. -/
def typeMatches (item : Json) (token : String) : Bool :=
  match item.get "downloadType" with
  | some (Json.str s) => s = token
  | _ => false

/-- updater.rs lines 71-86: navigate result.links, then find_map over the
entries.  Note that the closure of find_map yields None both when the entry
does not type-match and when it type-matches but its downloadUrl is missing
or not a string; in either case the scan continues with the next entry. -/
def get_download_url_from_json (json : Json) (download_type : DownloadType) :
    Option String :=
  (((json.get "result").bind (fun r => r.get "links")).bind Json.asArray).bind
    (fun links =>
      links.findSome? (fun item =>
        if typeMatches item download_type.toString then
          (item.get "downloadUrl").bind Json.asStr
        else
          none))

/-- The condition of the disk cache file before the run: missing, present but
unreadable, present but not valid JSON, or parsed to a document. -/
inductive CacheState where
  | missing
  | unreadable
  | unparsable
  | parsed (j : Json)

/-- updater.rs lines 56-69: open and parse the cache file; every failure
(open error, read error, parse error) collapses to Value::Null. -/
def get_json_from_cache : CacheState → Json
  | .parsed j => j
  | _ => Json.null

/-- args.rs: the argument record handed to update (clap parsing itself is out
of scope; the record mirrors the UpdateArgs struct). -/
structure UpdateArgs where
  download_type : DownloadType
  force : Bool
  server_path : String
  cache_path : String
  exclude : List String

/-- The outcome of the fallible external steps of one run, fixed ahead of
time: this is the shallow embedding of the ambient world (network, disk)
that the run interacts with. -/
structure Env where
  /-- Result of get_json_from_web: the parsed remote document, or Null on any
  transport or parse failure (lines 39-54 collapse every failure to Null). -/
  webJson : Json
  /-- Condition of the cache file named by args.cache_path. -/
  cache : CacheState
  /-- fetch_update_zip line 89: reqwest::blocking::get(download_url) is Ok. -/
  httpGetOk : Bool
  /-- fetch_update_zip line 90: resp.status().is_success(). -/
  statusOk : Bool
  /-- fetch_update_zip line 98: File::create of the staged file succeeds. -/
  createOk : Bool
  /-- fetch_update_zip lines 100-101: resp.bytes() and io::copy succeed. -/
  bodyOk : Bool
  /-- apply_update (lines 120-155) runs to completion: none of its unwraps
  (archive open, per-entry read, create_dir_all, File::create, io::copy)
  panics. -/
  applyOk : Bool
  /-- line 31: fs::remove_file of the staged file succeeds. -/
  removeOk : Bool
  /-- update_cache (lines 157-165) returns Ok. -/
  cacheWriteOk : Bool

/-- Observable outcome of one run of update. -/
structure Outcome where
  /-- The run aborted through a panicking unwrap. -/
  panicked : Bool
  /-- The version gate passed: execution reached line 25. -/
  proceeded : Bool
  /-- fetch_update_zip created the staged archive file on disk. -/
  tempCreated : Bool
  /-- fetch_update_zip returned Some: the download fully succeeded. -/
  downloaded : Bool
  /-- apply_update was invoked: mutation of the target tree was attempted. -/
  applyAttempted : Bool
  /-- apply_update returned normally. -/
  applyCompleted : Bool
  /-- The staged archive file was removed (line 31 ran and succeeded). -/
  tempRemoved : Bool
  /-- update_cache was invoked. -/
  cacheWriteAttempted : Bool
  /-- update_cache returned Ok: the cache file was rewritten. -/
  cacheWritten : Bool
deriving DecidableEq, Repr

/-- fetch_update_zip, lines 88-118, reduced to its two observable bits for a
given environment: (returned Some, staged file was created).  The file is
created at line 98, before the body is read, so a body failure still leaves
the created file behind. -/
def fetch_update_zip_outcome (env : Env) : Bool × Bool :=
  if env.httpGetOk = false then (false, false)
  else if env.statusOk = false then (false, false)
  else if env.createOk = false then (false, false)
  else if env.bodyOk = false then (false, true)
  else (true, true)

/-- Lines 11-12: the cached version token, defaulting to the literal "0.0.0"
whenever the cached document resolves to no URL. -/
def cachedToken (env : Env) (args : UpdateArgs) : String :=
  (get_download_url_from_json (get_json_from_cache env.cache)
      args.download_type).getD "0.0.0"

/-- The download as a whole succeeds (fetch_update_zip returns Some). -/
def downloadSucceeds (env : Env) : Bool :=
  env.httpGetOk && env.statusOk && env.createOk && env.bodyOk

/-- updater.rs lines 3-37, step for step.  Panics (unwrap on the remote
resolver at line 10, unwraps inside apply_update, unwrap on remove_file at
line 31) terminate the run at their program point, so everything after them
stays false. -/
def update (env : Env) (args : UpdateArgs) : Outcome :=
  if (env.webJson.isNull) = true then
    ⟨false, false, false, false, false, false, false, false, false⟩
  else
    match get_download_url_from_json env.webJson args.download_type with
    | none =>
      ⟨true, false, false, false, false, false, false, false, false⟩
    | some web_download_url =>
      let cache_download_url := cachedToken env args
      if args.force = false ∧ web_download_url = cache_download_url then
        ⟨false, false, false, false, false, false, false, false, false⟩
      else
        let fetched := fetch_update_zip_outcome env
        if fetched.1 = false then
          ⟨false, true, fetched.2, false, false, false, false, false, false⟩
        else if env.applyOk = false then
          ⟨true, true, fetched.2, true, true, false, false, false, false⟩
        else if env.removeOk = false then
          ⟨true, true, fetched.2, true, true, true, false, false, false⟩
        else
          ⟨false, true, fetched.2, true, true, true, true, true,
            env.cacheWriteOk⟩

/-! ### The archive applier (updater.rs lines 120-155)

Paths are modelled as component lists; a component either renders as a
string or does not (the non-UTF-8 case, where Path::to_str returns None).
The file system inside the target tree is a list of (absolute path, node)
bindings; the most recent binding for a path shadows older ones, which
models create/truncate-and-overwrite.  The unwraps inside the loop are OS
failures abstracted by Env.applyOk in the orchestrator model; here the file
operations are modelled on the success path. -/

/-- One path component: a UTF-8 component, or one with no string rendering. -/
inductive PComp where
  | s (v : String)
  | bad (id : Nat)
deriving DecidableEq, Repr

/-- Path::to_str on a relative path: the slash-joined rendering when every
component is UTF-8, None otherwise. -/
def pathToStr : List PComp → Option String
  | comps =>
    if comps.all (fun c => match c with | .s _ => true | .bad _ => false)
    then
      some (String.intercalate "/"
        (comps.map (fun c => match c with | .s v => v | .bad _ => "")))
    else none

/-- server_path.join(relative path): an absolute location in or at the root
of the target tree. -/
structure AbsPath where
  base : String
  rel : List PComp
deriving DecidableEq, Repr

/-- A file-system node: a directory, or a file with its byte content. -/
inductive Node where
  | dir
  | file (content : String)
deriving DecidableEq, Repr

/-- The on-disk state of the target tree. -/
abbrev FS := List (AbsPath × Node)

/-- Existence plus node kind at a path (fs::metadata is Ok exactly when the
path exists); the newest binding wins. -/
def fsLookup (fs : FS) (p : AbsPath) : Option Node :=
  (fs.find? (fun kv => kv.1 = p)).map (fun kv => kv.2)

/-- File::create / create_dir_all at one path: bind, shadowing any previous
binding. -/
def fsInsert (fs : FS) (p : AbsPath) (n : Node) : FS :=
  (p, n) :: fs

/-- fs::create_dir_all(server_path.join(rel)): every prefix of rel (from the
target root up to rel itself) becomes a directory. -/
def createDirAll (server_path : String) (rel : List PComp) (fs : FS) : FS :=
  ((List.range (rel.length + 1)).map (fun i => rel.take i)).foldl
    (fun acc p => fsInsert acc ⟨server_path, p⟩ Node.dir) fs

/-- One archive entry as the loop sees it: the result of enclosed_name (None
when the stored name is unsafe, making the loop continue), whether it is a
directory entry, and its byte content. -/
structure Entry where
  name : Option (List PComp)
  isDir : Bool
  content : String

/-- The node an extracted entry leaves at its destination. -/
def entryNode (e : Entry) : Node :=
  if e.isDir = true then Node.dir else Node.file e.content

/-- The loop body of apply_update (lines 128-153) for one entry:
skip unsafe names; compute should_exclude from the rendered relative path
(to_str().unwrap_or("")) and the existence of the destination; on skip the
file system is untouched; directory entries become create_dir_all on the
destination; file entries become create_dir_all on the parent followed by
create-and-copy at the destination. -/
def applyEntry (exclude : List String) (server_path : String) (fs : FS)
    (e : Entry) : FS :=
  match e.name with
  | none => fs
  | some rel =>
    let out_path : AbsPath := ⟨server_path, rel⟩
    if ((pathToStr rel).getD "") ∈ exclude ∧ (fsLookup fs out_path).isSome
    then fs
    else if e.isDir = true then
      createDirAll server_path rel fs
    else
      fsInsert (createDirAll server_path rel.dropLast fs) out_path
        (Node.file e.content)

/-- apply_update's whole loop: fold the body over the entries in archive
order. -/
def apply_update (server_path : String) (entries : List Entry)
    (exclude : List String) (fs : FS) : FS :=
  entries.foldl (applyEntry exclude server_path) fs

/-! ### The staged-file-name derivation (fetch_update_zip, line 95)

Strings are handled as character lists so that the split is the structural
recursion Rust's str::split performs. -/

/-- str::split on a single separator character: splitting the empty string
yields one empty segment, so the result is never the empty list. -/
def rustSplit (sep : Char) : List Char → List (List Char)
  | [] => [[]]
  | c :: cs =>
    match rustSplit sep cs with
    | [] => [[]]
    | seg :: rest =>
      if c = sep then [] :: seg :: rest else (c :: seg) :: rest

/-- Line 95: download_url.split on the slash, .last(), .unwrap_or the fixed
default name. -/
def fetch_file_name (download_url : List Char) : List Char :=
  ((rustSplit '/' download_url).getLast?).getD
    ("update.zip".data)

/-- The spec's description of the same derivation, for comparison: the text
after the final slash, falling back to the fixed default name when the URL
has no slash or that text is empty. -/
def claimedFileName (download_url : List Char) : List Char :=
  match (rustSplit '/' download_url).getLast? with
  | some seg =>
    if download_url.contains '/' = false ∨ seg = [] then
      "update.zip".data
    else seg
  | none => "update.zip".data

/-! ### Concrete runs used as counterexamples and witnesses -/

/-- A one-link manifest document with the given type token and URL. -/
def mkManifest (tok url : String) : Json :=
  Json.obj [("result", Json.obj [("links", Json.arr [
    Json.obj [("downloadType", Json.str tok), ("downloadUrl", Json.str url)]
  ])])]

/-- The default argument set of args.rs, tracking the Linux build. -/
def baseArgs : UpdateArgs :=
  ⟨DownloadType.linux, false, "/srv", "~/.bedrock-up/links.json",
    ["server.properties", "permissions.json", "allowlist.json"]⟩

/-- A run in which every external step succeeds and the remote URL is new. -/
def envGood : Env :=
  ⟨mkManifest "serverBedrockLinux" "https://x/v2.zip", CacheState.missing,
    true, true, true, true, true, true, true⟩

/-! ### Resolver lemmas -/

/-- The resolver yields nothing on the Null document. -/
theorem resolve_null (dt : DownloadType) :
    get_download_url_from_json Json.null dt = none := rfl

/-- A document on which the resolver yields a URL is not Null. -/
theorem isNull_false_of_resolve_some {j : Json} {dt : DownloadType}
    {w : String} (h : get_download_url_from_json j dt = some w) :
    j.isNull = false := by
  cases j <;> first
    | rfl
    | simp [get_download_url_from_json, Json.get] at h

/-- The scan of find_map, rephrased: it returns the URL of the first entry
that both type-matches and carries a string downloadUrl. -/
theorem findSome?_eq_find?_usable (tok : String) (links : List Json) :
    (links.findSome? (fun item =>
        if typeMatches item tok then
          (item.get "downloadUrl").bind Json.asStr
        else none)) =
      (links.find? (fun item =>
          typeMatches item tok &&
            ((item.get "downloadUrl").bind Json.asStr).isSome)).bind
        (fun item => (item.get "downloadUrl").bind Json.asStr) := by
  induction links with
  | nil => rfl
  | cons x xs ih =>
    by_cases hm : typeMatches x tok
    · rcases hu : (x.get "downloadUrl").bind Json.asStr with _ | u
      · simp [List.findSome?_cons, List.find?_cons, hm, hu, ih]
      · simp [List.findSome?_cons, List.find?_cons, hm, hu]
    · simp [List.findSome?_cons, List.find?_cons, hm, ih]

/-- The resolver the claim describes (written from the spec's words, for
comparison): find the first entry whose type field matches, then read that
entry's URL field; empty when the matching entry's URL is missing or not a
string. -/
def resolveClaimed (json : Json) (download_type : DownloadType) :
    Option String :=
  (((json.get "result").bind (fun r => r.get "links")).bind Json.asArray).bind
    (fun links =>
      (links.find? (fun item => typeMatches item download_type.toString)).bind
        (fun item => (item.get "downloadUrl").bind Json.asStr))

/-- The resolver the code implements, as a first-match search: the first
entry whose type matches and whose URL field is a string. -/
def resolveFirstUsable (json : Json) (download_type : DownloadType) :
    Option String :=
  (((json.get "result").bind (fun r => r.get "links")).bind Json.asArray).bind
    (fun links =>
      (links.find? (fun item =>
          typeMatches item download_type.toString &&
            ((item.get "downloadUrl").bind Json.asStr).isSome)).bind
        (fun item => (item.get "downloadUrl").bind Json.asStr))

/-- A manifest whose first serverJar link has no downloadUrl and whose
second serverJar link has one. -/
def manifestDupSparse : Json :=
  Json.obj [("result", Json.obj [("links", Json.arr [
    Json.obj [("downloadType", Json.str "serverJar")],
    Json.obj [("downloadType", Json.str "serverJar"),
      ("downloadUrl", Json.str "https://x/2")]
  ])])]

/-- C3: refuted as stated.  When the first type-matching entry lacks a
usable downloadUrl, the claim says the result is empty, but the code's
find_map skips that entry and returns the second match's URL. -/
theorem C3_counterexample :
    resolveClaimed manifestDupSparse DownloadType.serverJar = none
    ∧ get_download_url_from_json manifestDupSparse DownloadType.serverJar =
        some "https://x/2" := by
  constructor <;> rfl

/-- C3 (amended): resolve scans the sequence in document order and returns
the URL of the first entry whose downloadType exactly string-equals the
identity's rendered token AND whose downloadUrl is present and a string;
type-matching entries without a usable URL are skipped; if no such entry
exists, the result is empty. -/
theorem C3_resolver_first_usable_match (json : Json)
    (download_type : DownloadType) :
    get_download_url_from_json json download_type =
      resolveFirstUsable json download_type := by
  unfold get_download_url_from_json resolveFirstUsable
  rcases h : (((json.get "result").bind (fun r => r.get "links")).bind
      Json.asArray) with _ | links
  · simp [h]
  · simp only [h, Option.some_bind]
    exact findSome?_eq_find?_usable download_type.toString links

/-- C8: the resolver is empty-not-failing on every structurally deficient
document: the Null (absent) manifest, a document with no result field, a
result with no links field, and a links value that is not a sequence. -/
theorem C8_resolver_empty_on_missing_structure :
    (∀ dt : DownloadType, get_download_url_from_json Json.null dt = none)
    ∧ (∀ (dt : DownloadType) (j : Json), j.get "result" = none →
        get_download_url_from_json j dt = none)
    ∧ (∀ (dt : DownloadType) (j r : Json), j.get "result" = some r →
        r.get "links" = none →
        get_download_url_from_json j dt = none)
    ∧ (∀ (dt : DownloadType) (j r l : Json), j.get "result" = some r →
        r.get "links" = some l → l.asArray = none →
        get_download_url_from_json j dt = none) := by
  refine ⟨fun dt => rfl, fun dt j h => ?_, fun dt j r h1 h2 => ?_,
    fun dt j r l h1 h2 h3 => ?_⟩
  · simp [get_download_url_from_json, h]
  · simp [get_download_url_from_json, h1, h2]
  · simp [get_download_url_from_json, h1, h2, h3]

/-- C8 witness: the four cases at concrete documents. -/
theorem C8_witness :
    get_download_url_from_json Json.null DownloadType.windows = none
    ∧ get_download_url_from_json (Json.obj []) DownloadType.linux = none
    ∧ get_download_url_from_json (Json.obj [("result", Json.obj [])])
        DownloadType.serverJar = none
    ∧ get_download_url_from_json
        (Json.obj [("result", Json.obj [("links", Json.str "x")])])
        DownloadType.windows = none :=
  ⟨C8_resolver_empty_on_missing_structure.1 _,
    C8_resolver_empty_on_missing_structure.2.1 _ _ rfl,
    C8_resolver_empty_on_missing_structure.2.2.1 _ _ _ rfl rfl,
    C8_resolver_empty_on_missing_structure.2.2.2 _ _ _ _ rfl rfl rfl⟩

/-! ### Orchestrator lemmas -/

/-- fetch_update_zip returns Some exactly when every step of the download
succeeds. -/
theorem fetch_outcome_fst (env : Env) :
    (fetch_update_zip_outcome env).1 = downloadSucceeds env := by
  obtain ⟨wj, c, g, s, cr, b, a, r, cw⟩ := env
  cases g <;> cases s <;> cases cr <;> cases b <;> rfl

/-- Once the version gate passes, every continuation of the run has passed
it: the proceeded bit is set on all four leaves that follow. -/
theorem proceeded_of_new_url (env : Env) (args : UpdateArgs) (w : String)
    (hres : get_download_url_from_json env.webJson args.download_type = some w)
    (hw : w ≠ cachedToken env args) :
    (update env args).proceeded = true := by
  have hnull := isNull_false_of_resolve_some hres
  unfold update
  rw [hnull, hres]
  rw [if_neg (by decide : ¬(false = true))]
  dsimp only
  rw [if_neg (show ¬(args.force = false ∧ w = cachedToken env args) from
    fun hc => hw hc.2)]
  split
  · rfl
  · split
    · rfl
    · split <;> rfl

/-- Shape of the run when the remote document is Null. -/
theorem update_null_remote (env : Env) (args : UpdateArgs)
    (hnull : env.webJson.isNull = true) :
    update env args =
      ⟨false, false, false, false, false, false, false, false, false⟩ := by
  unfold update
  rw [hnull]
  rfl

/-- Shape of the run when the remote is present but resolves to no URL. -/
theorem update_no_remote_link (env : Env) (args : UpdateArgs)
    (hpresent : env.webJson.isNull = false)
    (hres : get_download_url_from_json env.webJson args.download_type = none) :
    update env args =
      ⟨true, false, false, false, false, false, false, false, false⟩ := by
  unfold update
  rw [hpresent, hres]
  rfl

/-- Shape of the run when the version gate rejects: same URL, no force. -/
theorem update_gate_skip (env : Env) (args : UpdateArgs) (w : String)
    (hpresent : env.webJson.isNull = false)
    (hres : get_download_url_from_json env.webJson args.download_type = some w)
    (hgate : args.force = false ∧ w = cachedToken env args) :
    update env args =
      ⟨false, false, false, false, false, false, false, false, false⟩ := by
  unfold update
  rw [hpresent, hres]
  rw [if_neg (by decide : ¬(false = true))]
  dsimp only
  rw [if_pos hgate]

/-- Shape of the run once the version gate passes: the rest of the run is
determined by the download, apply, and removal outcomes. -/
theorem update_proceed (env : Env) (args : UpdateArgs) (w : String)
    (hpresent : env.webJson.isNull = false)
    (hres : get_download_url_from_json env.webJson args.download_type = some w)
    (hgate : ¬(args.force = false ∧ w = cachedToken env args)) :
    update env args =
      if (fetch_update_zip_outcome env).1 = false then
        ⟨false, true, (fetch_update_zip_outcome env).2, false, false, false,
          false, false, false⟩
      else if env.applyOk = false then
        ⟨true, true, (fetch_update_zip_outcome env).2, true, true, false,
          false, false, false⟩
      else if env.removeOk = false then
        ⟨true, true, (fetch_update_zip_outcome env).2, true, true, true,
          false, false, false⟩
      else
        ⟨false, true, (fetch_update_zip_outcome env).2, true, true, true,
          true, true, env.cacheWriteOk⟩ := by
  unfold update
  rw [hpresent, hres]
  rw [if_neg (by decide : ¬(false = true))]
  dsimp only
  rw [if_neg hgate]

/-- C5: if the remote manifest is present (not Null) but yields no link for
the requested identity, the run panics on the unwrap at line 10: no
download, no apply, no cache write, no recovery. -/
theorem C5_missing_remote_link_is_fatal (env : Env) (args : UpdateArgs)
    (hpresent : env.webJson.isNull = false)
    (hres : get_download_url_from_json env.webJson args.download_type = none) :
    update env args =
      ⟨true, false, false, false, false, false, false, false, false⟩ :=
  update_no_remote_link env args hpresent hres

/-- A present remote manifest whose links sequence is empty. -/
def envNoLink : Env :=
  ⟨Json.obj [("result", Json.obj [("links", Json.arr [])])],
    CacheState.missing, true, true, true, true, true, true, true⟩

/-- C5 witness: a concrete present-but-linkless manifest panics the run. -/
theorem C5_witness :
    update envNoLink baseArgs =
      ⟨true, false, false, false, false, false, false, false, false⟩ :=
  C5_missing_remote_link_is_fatal envNoLink baseArgs rfl rfl

/-- C6 as the claim states it: with no cache file, the cached token is
"0.0.0" and every non-empty remote token triggers an update. -/
def C6Claimed (env : Env) (args : UpdateArgs) : Prop :=
  env.cache = CacheState.missing →
    cachedToken env args = "0.0.0"
    ∧ ∀ w, get_download_url_from_json env.webJson args.download_type = some w →
        w ≠ "" → (update env args).proceeded = true

/-- A run with no cache file whose remote URL is the literal "0.0.0". -/
def envRemoteDefaultToken : Env :=
  ⟨mkManifest "serverBedrockLinux" "0.0.0", CacheState.missing,
    true, true, true, true, true, true, true⟩

/-- C6: refuted as stated.  The remote token "0.0.0" is non-empty, yet it
equals the absent-cache default, so the version gate skips the update. -/
theorem C6_counterexample : ¬ C6Claimed envRemoteDefaultToken baseArgs := by
  intro h
  exact absurd ((h rfl).2 "0.0.0" rfl (by decide)) (by decide)

/-- C6 (amended): with no cache file the cached token defaults to the
literal "0.0.0", and any remote token other than "0.0.0" itself differs
from it and passes the version gate. -/
theorem C6_absent_cache_default_token (env : Env) (args : UpdateArgs)
    (hcache : env.cache = CacheState.missing) :
    cachedToken env args = "0.0.0"
    ∧ ∀ w, get_download_url_from_json env.webJson args.download_type = some w →
        w ≠ "0.0.0" → (update env args).proceeded = true := by
  have htok : cachedToken env args = "0.0.0" := by
    unfold cachedToken
    rw [hcache]
    rfl
  refine ⟨htok, fun w hres hw => ?_⟩
  exact proceeded_of_new_url env args w hres (fun hc => hw (hc.trans htok))

/-- C6 witness: a concrete cache-less run with a fresh remote URL. -/
theorem C6_witness :
    cachedToken envGood baseArgs = "0.0.0"
    ∧ (update envGood baseArgs).proceeded = true :=
  ⟨(C6_absent_cache_default_token envGood baseArgs rfl).1,
    (C6_absent_cache_default_token envGood baseArgs rfl).2
      "https://x/v2.zip" rfl (by decide)⟩

/-- C9 as the claim states it: whenever the cached manifest resolves to no
URL, the default token applies and any resolvable remote URL triggers an
update. -/
def C9Claimed (env : Env) (args : UpdateArgs) : Prop :=
  get_download_url_from_json (get_json_from_cache env.cache)
      args.download_type = none →
    cachedToken env args = "0.0.0"
    ∧ ∀ w, get_download_url_from_json env.webJson args.download_type = some w →
        (update env args).proceeded = true

/-- A run with an unparsable cache file whose remote URL is "0.0.0". -/
def envUnparsableCache : Env :=
  ⟨mkManifest "serverBedrockWindows" "0.0.0", CacheState.unparsable,
    true, true, true, true, true, true, true⟩

/-- Arguments tracking the Windows build. -/
def argsWindows : UpdateArgs :=
  { baseArgs with download_type := DownloadType.windows }

/-- C9: refuted as stated.  With an unparsable cache the default applies,
but the resolvable remote URL "0.0.0" equals that default and the update is
skipped. -/
theorem C9_counterexample : ¬ C9Claimed envUnparsableCache argsWindows := by
  intro h
  exact absurd ((h rfl).2 "0.0.0" rfl) (by decide)

/-- C9 (amended): the "0.0.0" default applies whenever resolving the cached
manifest yields no URL for any reason (the cache file missing, unreadable or
unparsable all collapse to the Null document; a parsed document may simply
lack a matching link), and in every such case any resolvable remote URL
other than the literal "0.0.0" passes the version gate. -/
theorem C9_default_token_any_unresolved_cache (env : Env)
    (args : UpdateArgs) :
    ((env.cache = CacheState.missing ∨ env.cache = CacheState.unreadable ∨
        env.cache = CacheState.unparsable) →
      get_json_from_cache env.cache = Json.null)
    ∧ (get_download_url_from_json (get_json_from_cache env.cache)
          args.download_type = none →
        cachedToken env args = "0.0.0")
    ∧ ∀ w, get_download_url_from_json (get_json_from_cache env.cache)
          args.download_type = none →
        get_download_url_from_json env.webJson args.download_type = some w →
        w ≠ "0.0.0" → (update env args).proceeded = true := by
  refine ⟨?_, fun hnone => ?_, fun w hnone hres hw => ?_⟩
  · rintro (h | h | h) <;> rw [h] <;> rfl
  · unfold cachedToken
    rw [hnone]
    rfl
  · have htok : cachedToken env args = "0.0.0" := by
      unfold cachedToken
      rw [hnone]
      rfl
    exact proceeded_of_new_url env args w hres (fun hc => hw (hc.trans htok))

/-- A run whose cache parses but holds no link for the tracked identity. -/
def envCacheNoLink : Env :=
  ⟨mkManifest "serverBedrockLinux" "https://x/v2.zip",
    CacheState.parsed (mkManifest "serverJar" "https://x/old.zip"),
    true, true, true, true, true, true, true⟩

/-- C9 witness: the unparsable-cache collapse and the
parsed-but-linkless-cache default, with the gate passing on a fresh URL. -/
theorem C9_witness :
    get_json_from_cache CacheState.unparsable = Json.null
    ∧ cachedToken envCacheNoLink baseArgs = "0.0.0"
    ∧ (update envCacheNoLink baseArgs).proceeded = true :=
  ⟨(C9_default_token_any_unresolved_cache envUnparsableCache baseArgs).1
      (Or.inr (Or.inr rfl)),
    (C9_default_token_any_unresolved_cache envCacheNoLink baseArgs).2.1 rfl,
    (C9_default_token_any_unresolved_cache envCacheNoLink baseArgs).2.2
      "https://x/v2.zip" rfl rfl (by decide)⟩

/-- C1 as the claim states it: apply happens exactly when the remote is
present and (the URLs differ or force is set), and the cache is rewritten
exactly when apply happened. -/
def C1Claimed (env : Env) (args : UpdateArgs) : Prop :=
  ((update env args).applyAttempted = true ↔
    (env.webJson.isNull = false
      ∧ (get_download_url_from_json env.webJson args.download_type ≠
            some (cachedToken env args)
        ∨ args.force = true)))
  ∧ ((update env args).cacheWritten = true ↔
      (update env args).applyAttempted = true)

/-- A run with a fresh remote URL whose archive download GET fails. -/
def envDownloadFails : Env :=
  ⟨mkManifest "serverBedrockLinux" "https://x/v2.zip",
    CacheState.parsed (mkManifest "serverBedrockLinux" "https://x/v1.zip"),
    false, true, true, true, true, true, true⟩

/-- C1: refuted as stated.  The remote manifest is present and its URL
differs from the cached one, yet no update is applied because the archive
download fails. -/
theorem C1_counterexample : ¬ C1Claimed envDownloadFails baseArgs := by
  unfold C1Claimed
  decide

/-- C1 (amended): an update is applied to the target tree exactly when the
remote manifest is present, it resolves to a URL, the version gate passes
(force set, or the URL differs from the cached token), and the download
fully succeeds; the cache is rewritten exactly when the update was applied
and extraction, staged-file removal, and the cache write itself all
succeeded — in particular the cache is never rewritten without an apply. -/
theorem C1_version_gate_and_cache_invariant (env : Env) (args : UpdateArgs) :
    ((update env args).applyAttempted = true ↔
      (env.webJson.isNull = false
        ∧ (get_download_url_from_json env.webJson args.download_type).isSome
            = true
        ∧ ¬(args.force = false
            ∧ get_download_url_from_json env.webJson args.download_type =
                some (cachedToken env args))
        ∧ downloadSucceeds env = true))
    ∧ ((update env args).cacheWritten = true →
        (update env args).applyAttempted = true)
    ∧ ((update env args).cacheWritten = true ↔
        ((update env args).applyAttempted = true ∧ env.applyOk = true
          ∧ env.removeOk = true ∧ env.cacheWriteOk = true)) := by
  by_cases hnull : env.webJson.isNull = true
  · rw [update_null_remote env args hnull]
    simp [hnull]
  · have hpresent : env.webJson.isNull = false := by
      revert hnull
      cases env.webJson.isNull <;> simp
    rcases hres : get_download_url_from_json env.webJson args.download_type
      with _ | w
    · rw [update_no_remote_link env args hpresent hres]
      simp [hres]
    · by_cases hgate : args.force = false ∧ w = cachedToken env args
      · rw [update_gate_skip env args w hpresent hres hgate]
        simp [hres, hgate.1, hgate.2]
      · rw [update_proceed env args w hpresent hres hgate, fetch_outcome_fst]
        rcases hdl : downloadSucceeds env with _ | _
        · simp [hpresent, hres]
        · rcases ha : env.applyOk with _ | _
          · simp [hpresent, hres, hgate, ha]
          · rcases hr : env.removeOk with _ | _ <;>
              simp [hpresent, hres, hgate, ha, hr]

/-- C1 witness: in the all-success fresh-URL run the apply happens and the
cache is rewritten. -/
theorem C1_witness : (update envGood baseArgs).applyAttempted = true :=
  (C1_version_gate_and_cache_invariant envGood baseArgs).2.1 (by decide)

/-- C4 as the claim states it: once the staged archive file was created, it
is deleted whether or not apply succeeded. -/
def C4Claimed (env : Env) (args : UpdateArgs) : Prop :=
  (update env args).tempCreated = true → (update env args).tempRemoved = true

/-- A run in which the download succeeds and apply_update panics. -/
def envApplyPanics : Env :=
  ⟨mkManifest "serverBedrockLinux" "https://x/v2.zip", CacheState.missing,
    true, true, true, true, false, true, true⟩

/-- C4: refuted as stated.  In a run where the staged file was created, the
download succeeded, and apply was attempted, the apply panic aborts the
process before line 31, so the staged file is never removed. -/
theorem C4_counterexample :
    ¬ C4Claimed envApplyPanics baseArgs
    ∧ (update envApplyPanics baseArgs).downloaded = true
    ∧ (update envApplyPanics baseArgs).applyAttempted = true := by
  unfold C4Claimed
  decide

/-- C4 (amended): the staged file is removed only after apply_update returns
normally; if apply is attempted and panics, the run aborts with the staged
file still on disk; when apply completes and the removal call itself
succeeds, the file is removed. -/
theorem C4_cleanup_only_on_apply_success (env : Env) (args : UpdateArgs) :
    ((update env args).tempRemoved = true →
      (update env args).applyCompleted = true)
    ∧ ((update env args).applyAttempted = true ∧ env.applyOk = false →
      (update env args).panicked = true
        ∧ (update env args).tempRemoved = false)
    ∧ ((update env args).applyCompleted = true → env.removeOk = true →
      (update env args).tempRemoved = true) := by
  by_cases hnull : env.webJson.isNull = true
  · rw [update_null_remote env args hnull]
    simp
  · have hpresent : env.webJson.isNull = false := by
      revert hnull
      cases env.webJson.isNull <;> simp
    rcases hres : get_download_url_from_json env.webJson args.download_type
      with _ | w
    · rw [update_no_remote_link env args hpresent hres]
      simp
    · by_cases hgate : args.force = false ∧ w = cachedToken env args
      · rw [update_gate_skip env args w hpresent hres hgate]
        simp
      · rw [update_proceed env args w hpresent hres hgate]
        rcases hdl : (fetch_update_zip_outcome env).1 with _ | _
        · simp
        · rcases ha : env.applyOk with _ | _
          · simp [ha]
          · rcases hr : env.removeOk with _ | _ <;> simp [ha, hr]

/-- C4 witness: the panicking-apply run keeps the staged file, the all-good
run removes it. -/
theorem C4_witness :
    ((update envApplyPanics baseArgs).panicked = true
      ∧ (update envApplyPanics baseArgs).tempRemoved = false)
    ∧ (update envGood baseArgs).tempRemoved = true :=
  ⟨(C4_cleanup_only_on_apply_success envApplyPanics baseArgs).2.1
      (by decide),
    (C4_cleanup_only_on_apply_success envGood baseArgs).2.2
      (by decide) (by decide)⟩

/-! ### File-system lemmas for the applier -/

/-- A fresh binding is found at its own path. -/
theorem fsLookup_insert_self (fs : FS) (p : AbsPath) (n : Node) :
    fsLookup (fsInsert fs p n) p = some n := by
  simp [fsLookup, fsInsert]

/-- A fresh binding leaves lookups at other paths unchanged. -/
theorem fsLookup_insert_ne (fs : FS) (p q : AbsPath) (n : Node)
    (h : ¬(q = p)) :
    fsLookup (fsInsert fs q n) p = fsLookup fs p := by
  simp [fsLookup, fsInsert, h]

/-- Folding directory inserts over paths not containing p leaves p alone. -/
theorem fsLookup_foldl_insert_not_mem (sp : String)
    (ps : List (List PComp)) (fs : FS) (p : List PComp) (hp : ¬ p ∈ ps) :
    fsLookup (ps.foldl (fun acc q => fsInsert acc ⟨sp, q⟩ Node.dir) fs)
      ⟨sp, p⟩ = fsLookup fs ⟨sp, p⟩ := by
  induction ps generalizing fs with
  | nil => rfl
  | cons q qs ih =>
    simp only [List.foldl_cons]
    rw [ih _ (fun hmem => hp (List.mem_cons_of_mem _ hmem)),
      fsLookup_insert_ne _ _ _ _ (fun he => hp (by
        injection he with h1 h2
        subst h2
        exact List.mem_cons_self _ _))]

/-- Folding directory inserts over a path list makes each listed path a
directory. -/
theorem fsLookup_foldl_insert_mem (sp : String) (ps : List (List PComp))
    (fs : FS) (p : List PComp) (hp : p ∈ ps) :
    fsLookup (ps.foldl (fun acc q => fsInsert acc ⟨sp, q⟩ Node.dir) fs)
      ⟨sp, p⟩ = some Node.dir := by
  induction ps generalizing fs with
  | nil => cases hp
  | cons q qs ih =>
    simp only [List.foldl_cons]
    by_cases hq : p ∈ qs
    · exact ih _ hq
    · have hpq : p = q := by
        rcases List.mem_cons.mp hp with h | h
        · exact h
        · exact absurd h hq
      subst hpq
      rw [fsLookup_foldl_insert_not_mem sp qs _ p hq, fsLookup_insert_self]

/-- create_dir_all leaves a directory at the full requested path. -/
theorem fsLookup_createDirAll_self (sp : String) (rel : List PComp)
    (fs : FS) :
    fsLookup (createDirAll sp rel fs) ⟨sp, rel⟩ = some Node.dir := by
  unfold createDirAll
  apply fsLookup_foldl_insert_mem
  exact List.mem_map.mpr
    ⟨rel.length, List.mem_range.mpr (Nat.lt_succ_self _),
      List.take_length _⟩

/-- C2: during apply, an excluded entry is skipped entirely (the file
system is left untouched) exactly when its destination already exists;
when the destination does not exist yet, the entry is still extracted and
created from the archive. -/
theorem C2_exclusion_protects_only_existing (exclude : List String)
    (server_path : String) (fs : FS) (e : Entry) (rel : List PComp)
    (s : String) (hname : e.name = some rel) (hstr : pathToStr rel = some s)
    (hmem : s ∈ exclude) :
    ((fsLookup fs ⟨server_path, rel⟩).isSome = true →
      applyEntry exclude server_path fs e = fs)
    ∧ (fsLookup fs ⟨server_path, rel⟩ = none →
      fsLookup (applyEntry exclude server_path fs e) ⟨server_path, rel⟩ =
        some (entryNode e)) := by
  constructor
  · intro hex
    unfold applyEntry
    rw [hname]
    dsimp only
    rw [if_pos ⟨by rw [hstr]; exact hmem, hex⟩]
  · intro hnone
    unfold applyEntry
    rw [hname]
    dsimp only
    rw [if_neg (fun hc => by
      have h2 := hc.2
      rw [hnone] at h2
      exact absurd h2 (by decide))]
    cases hdir : e.isDir
    · rw [if_neg (by decide : ¬(false = true)), fsLookup_insert_self]
      simp [entryNode, hdir]
    · rw [if_pos rfl, fsLookup_createDirAll_self]
      simp [entryNode, hdir]

/-- An archive entry for config.json with fresh content. -/
def entryConfig : Entry := ⟨some [PComp.s "config.json"], false, "new"⟩

/-- A target tree in which config.json already exists. -/
def fsWithConfig : FS :=
  [(⟨"/srv", [PComp.s "config.json"]⟩, Node.file "old")]

/-- C2 witness: with config.json excluded, a pre-existing file survives the
entry untouched, and an absent one is created from the archive. -/
theorem C2_witness :
    applyEntry ["config.json"] "/srv" fsWithConfig entryConfig = fsWithConfig
    ∧ fsLookup (applyEntry ["config.json"] "/srv" [] entryConfig)
        ⟨"/srv", [PComp.s "config.json"]⟩ = some (Node.file "new") :=
  ⟨(C2_exclusion_protects_only_existing ["config.json"] "/srv" fsWithConfig
      entryConfig [PComp.s "config.json"] "config.json" rfl rfl
      (by decide)).1 (by decide),
    (C2_exclusion_protects_only_existing ["config.json"] "/srv" []
      entryConfig [PComp.s "config.json"] "config.json" rfl rfl
      (by decide)).2 rfl⟩

/-- An archive entry whose safe relative path has no UTF-8 rendering. -/
def entryBadName : Entry := ⟨some [PComp.bad 0], false, "new"⟩

/-- A target tree already holding something at the unrenderable path. -/
def fsWithBadPath : FS := [(⟨"/srv", [PComp.bad 0]⟩, Node.file "old")]

/-- C10: refuted as stated.  An entry with no UTF-8 rendering is compared
as the empty string, so when the exclusion set contains the empty string
and the destination exists, the entry does match an exclusion and is
skipped rather than extracted. -/
theorem C10_counterexample :
    pathToStr [PComp.bad 0] = none
    ∧ applyEntry [""] "/srv" fsWithBadPath entryBadName = fsWithBadPath := by
  constructor
  · rfl
  · decide

/-- C10 (amended): an entry whose safe relative path cannot be rendered as
UTF-8 is compared against the empty string (the check is total, never
failing on such a name), so it matches an exclusion exactly when the
exclusion set contains the empty string; whenever it does not, the entry is
always extracted. -/
theorem C10_unrenderable_entry_matches_only_empty (exclude : List String)
    (server_path : String) (fs : FS) (e : Entry) (rel : List PComp)
    (hname : e.name = some rel) (hstr : pathToStr rel = none) :
    (((pathToStr rel).getD "" ∈ exclude) ↔ "" ∈ exclude)
    ∧ (¬ "" ∈ exclude →
      fsLookup (applyEntry exclude server_path fs e) ⟨server_path, rel⟩ =
        some (entryNode e)) := by
  constructor
  · rw [hstr]
    exact Iff.rfl
  · intro hnotin
    unfold applyEntry
    rw [hname]
    dsimp only
    rw [if_neg (fun hc => hnotin (by
      have h1 := hc.1
      rw [hstr] at h1
      exact h1))]
    cases hdir : e.isDir
    · rw [if_neg (by decide : ¬(false = true)), fsLookup_insert_self]
      simp [entryNode, hdir]
    · rw [if_pos rfl, fsLookup_createDirAll_self]
      simp [entryNode, hdir]

/-- C10 witness: under the default exclusions an unrenderable entry is
extracted. -/
theorem C10_witness :
    fsLookup (applyEntry ["server.properties"] "/srv" [] entryBadName)
      ⟨"/srv", [PComp.bad 0]⟩ = some (Node.file "new") :=
  (C10_unrenderable_entry_matches_only_empty ["server.properties"] "/srv"
    [] entryBadName [PComp.bad 0] rfl rfl).2 (by decide)

/-! ### Staged-file-name lemmas -/

/-- str::split always yields at least one segment. -/
theorem rustSplit_ne_nil (sep : Char) (l : List Char) :
    rustSplit sep l ≠ [] := by
  cases l with
  | nil => simp [rustSplit]
  | cons c cs =>
    unfold rustSplit
    rcases h : rustSplit sep cs with _ | ⟨seg, rest⟩
    · simp
    · dsimp only
      split <;> simp

/-- Splitting a string free of the separator yields that string whole. -/
theorem rustSplit_of_not_mem (sep : Char) (l : List Char)
    (h : ¬ sep ∈ l) : rustSplit sep l = [l] := by
  induction l with
  | nil => rfl
  | cons c cs ih =>
    have hc : ¬(c = sep) := fun he => h (he ▸ List.mem_cons_self c cs)
    have hcs : ¬ sep ∈ cs := fun hm => h (List.mem_cons_of_mem _ hm)
    unfold rustSplit
    rw [ih hcs]
    dsimp only
    rw [if_neg hc]

/-- The one-step unfolding of the split. -/
theorem rustSplit_cons (sep c : Char) (cs : List Char) :
    rustSplit sep (c :: cs) =
      match rustSplit sep cs with
      | [] => [[]]
      | seg :: rest =>
        if c = sep then [] :: seg :: rest else (c :: seg) :: rest := rfl

/-- A leading separator contributes one empty segment. -/
theorem rustSplit_cons_sep (sep : Char) (cs : List Char) :
    rustSplit sep (sep :: cs) = [] :: rustSplit sep cs := by
  rw [rustSplit_cons]
  rcases h : rustSplit sep cs with _ | ⟨seg, rest⟩
  · exact absurd h (rustSplit_ne_nil _ _)
  · dsimp only
    rw [if_pos rfl]

/-- Splitting a string that contains the separator yields at least two
segments. -/
theorem rustSplit_append_sep_length (sep : Char) (a b : List Char) :
    2 ≤ (rustSplit sep (a ++ sep :: b)).length := by
  induction a with
  | nil =>
    rw [List.nil_append, rustSplit_cons_sep]
    have hpos : 0 < (rustSplit sep b).length :=
      List.length_pos.mpr (rustSplit_ne_nil sep b)
    simp only [List.length_cons]
    omega
  | cons c cs ih =>
    rw [List.cons_append, rustSplit_cons]
    rcases h : rustSplit sep (cs ++ sep :: b) with _ | ⟨seg, rest⟩
    · exact absurd h (rustSplit_ne_nil _ _)
    · rw [h] at ih
      dsimp only
      split
      · simp only [List.length_cons] at ih ⊢
        omega
      · simp only [List.length_cons] at ih ⊢
        omega

/-- The last segment of a split is untouched by anything before the last
separator. -/
theorem getLast?_rustSplit_append (sep : Char) (a b : List Char) :
    (rustSplit sep (a ++ sep :: b)).getLast? = (rustSplit sep b).getLast? := by
  induction a with
  | nil =>
    rw [List.nil_append, rustSplit_cons_sep]
    rcases h : rustSplit sep b with _ | ⟨seg, rest⟩
    · exact absurd h (rustSplit_ne_nil _ _)
    · rw [List.getLast?_cons_cons]
  | cons c cs ih =>
    rw [List.cons_append, rustSplit_cons]
    have hlen := rustSplit_append_sep_length sep cs b
    rcases h : rustSplit sep (cs ++ sep :: b) with _ | ⟨seg, rest⟩
    · exact absurd h (rustSplit_ne_nil _ _)
    · rw [h] at ih hlen
      rcases rest with _ | ⟨r1, rs⟩
      · simp at hlen
      · rw [← ih]
        dsimp only
        split
        · rw [List.getLast?_cons_cons]
        · rw [List.getLast?_cons_cons, List.getLast?_cons_cons]

/-- C7: refuted as stated.  For a URL ending in a slash the claim's
derivation falls back to the fixed default name, but fetch_update_zip's
split-and-last yields the empty final segment: the unwrap_or default is
unreachable because str::split always produces a (possibly empty) last
segment. -/
theorem C7_counterexample :
    fetch_file_name ("https://x/".data) = []
    ∧ claimedFileName ("https://x/".data) = "update.zip".data
    ∧ "update.zip".data ≠ ([] : List Char) := by
  refine ⟨rfl, rfl, by decide⟩

/-- C7 (amended): the staged file name is always the (possibly empty) text
after the final slash — the whole URL when it contains no slash — and the
fixed default name never arises from the fallback, since the split always
has a last segment. -/
theorem C7_file_name_is_last_segment (url a b : List Char) :
    (∃ seg, (rustSplit '/' url).getLast? = some seg
      ∧ fetch_file_name url = seg)
    ∧ (¬ '/' ∈ url → fetch_file_name url = url)
    ∧ (¬ '/' ∈ b → fetch_file_name (a ++ '/' :: b) = b) := by
  refine ⟨?_, fun h => ?_, fun h => ?_⟩
  · rcases hl : (rustSplit '/' url).getLast? with _ | seg
    · exact absurd (List.getLast?_eq_none_iff.mp hl)
        (rustSplit_ne_nil '/' url)
    · refine ⟨seg, rfl, ?_⟩
      unfold fetch_file_name
      rw [hl]
      rfl
  · unfold fetch_file_name
    rw [rustSplit_of_not_mem _ _ h]
    rfl
  · unfold fetch_file_name
    rw [getLast?_rustSplit_append, rustSplit_of_not_mem _ _ h]
    rfl

/-- C7 witness: a slash-free URL keeps its whole text as the name, and a
URL with a final segment uses exactly that segment. -/
theorem C7_witness :
    fetch_file_name ("update".data) = "update".data
    ∧ fetch_file_name ("https://x".data ++ '/' :: "v2.zip".data) =
        "v2.zip".data :=
  ⟨(C7_file_name_is_last_segment "update".data [] []).2.1 (by decide),
    (C7_file_name_is_last_segment ("https://x".data ++ '/' :: "v2.zip".data)
      "https://x".data "v2.zip".data).2.2 (by decide)⟩

end Updater
